import Mathlib

/-!
Verification of the one-to-one signaling protocol of `webrtc-tight`.

The server side (signaling-server/src/one_to_one.rs) keeps two shared maps:
a Connection Registry mapping each connected endpoint id to its outbound
sink, and a Session Table mapping a session id to a `Session` record with
two optional endpoint slots and an `offer_received` flag.  We embed the
maps as association lists (the registry only by its key set, since the
only observable action on a sink is a delivery, which we log in an output
trace).  Panics of the Rust code (`unwrap` on a registry lookup) are
embedded as `none` results.

The endpoint side (library/src/one_to_one.rs) contributes `send_message`,
embedded with the transport writes it performs made explicit.
-/

namespace Signaling

/-- Session record of the server's Session Table, from
signaling-server/src/one_to_one.rs lines 15-19. -/
structure Session where
  first : Option Nat
  second : Option Nat
  offer_received : Bool
deriving DecidableEq, Repr

/-- Ice candidate payload, from protocol/src/one_to_one.rs lines 10-14
(the `u16` index is widened to `Nat`; no arithmetic is performed on it). -/
structure CandidatePayload where
  candidate : String
  sdp_mid : Option String
  sdp_m_line_index : Option Nat
deriving DecidableEq, Repr

/-- Wire vocabulary, from protocol/src/one_to_one.rs lines 20-35. -/
inductive SignalMessage where
  | SessionJoin (sid : Nat)
  | SessionReady (sid : Nat)
  | SdpOffer (sid : Nat) (sdp : String)
  | SdpAnswer (sid : Nat) (sdp : String)
  | IceCandidate (sid : Nat) (payload : CandidatePayload)
  | Error (sid : Nat) (detail : String)
deriving DecidableEq, Repr

/-- Server state: the key set of the Connection Registry and the Session
Table as an association list keyed by session id. -/
structure ServerState where
  connections : List Nat
  sessions : List (Nat × Session)
deriving DecidableEq, Repr

/-- Deliveries performed on endpoint sinks: pairs of recipient endpoint id
and the message handed to its sink. -/
abbrev Deliveries := List (Nat × SignalMessage)

/-- Lookup in the Session Table (first entry with the given key, matching
`HashMap::get` on the unique-key tables the server builds). -/
def lookupSession : List (Nat × Session) → Nat → Option Session
  | [], _ => none
  | (k, v) :: rest, sid => if k = sid then some v else lookupSession rest sid

/-- Update the first entry with the given key, or append a fresh entry:
the combined effect of `Entry::Vacant.insert` / mutating an occupied
entry in place. -/
def setSession : List (Nat × Session) → Nat → Session → List (Nat × Session)
  | [], sid, s => [(sid, s)]
  | (k, v) :: rest, sid, s =>
      if k = sid then (k, s) :: rest else (k, v) :: setSession rest sid s

/-- Remove the entry with the given key (`HashMap::remove`). -/
def removeSession : List (Nat × Session) → Nat → List (Nat × Session)
  | [], _ => []
  | (k, v) :: rest, sid => if k = sid then rest else (k, v) :: removeSession rest sid

/-- Recipient choice of the router, from one_to_one.rs lines 121-125: if
the `first` slot is occupied the recipient is `second`, else `first`. -/
def routeRecipient (s : Session) : Option Nat :=
  if s.first.isSome then s.second else s.first

/-- Session id carried by a routed negotiation or candidate message
(the `SdpOffer | SdpAnswer | IceCandidate` arm of the router's match). -/
def routedSid : SignalMessage → Option Nat
  | .SdpOffer sid _ => some sid
  | .SdpAnswer sid _ => some sid
  | .IceCandidate sid _ => some sid
  | _ => none

/-- Routing of negotiation and candidate messages, from one_to_one.rs
lines 106-139.  `none` embeds a panic (a failed `unwrap` on the registry
lookup of the recipient); an unknown session or a missing peer is logged
and dropped, leaving the output trace empty for that message. -/
def routeMsg (sid : Nat) (m : SignalMessage) (st : ServerState) :
    Option (ServerState × Deliveries) :=
  match lookupSession st.sessions sid with
  | none => some (st, [])
  | some s =>
      let s := if s.offer_received then s else { s with offer_received := true }
      let st' := { st with sessions := setSession st.sessions sid s }
      match routeRecipient s with
      | some rid =>
          if rid ∈ st.connections then some (st', [(rid, m)]) else none
      | none => some (st', [])

/-- The server's per-message handler `user_message`, from one_to_one.rs
lines 59-142.  The result is the new state paired with the deliveries
performed, or `none` when the code would panic on a registry `unwrap`. -/
def user_message (uid : Nat) (m : SignalMessage) (st : ServerState) :
    Option (ServerState × Deliveries) :=
  match m with
  | .SessionJoin sid =>
      match lookupSession st.sessions sid with
      | none =>
          some ({ st with
                    sessions := setSession st.sessions sid ⟨some uid, none, false⟩ }, [])
      | some s =>
          let s := { s with second := some uid }
          let st' := { st with sessions := setSession st.sessions sid s }
          match s.first with
          | some first_id =>
              if first_id ∈ st.connections then
                if uid ∈ st.connections then
                  some (st', [(first_id, .SessionReady sid), (uid, .SessionReady sid)])
                else none
              else none
          | none => some (st', [])
  | .SdpOffer sid _ => routeMsg sid m st
  | .SdpAnswer sid _ => routeMsg sid m st
  | .IceCandidate sid _ => routeMsg sid m st
  | .SessionReady _ => some (st, [])
  | .Error _ _ => some (st, [])

/-- Slot clearing of `user_disconnected` (one_to_one.rs lines 147-151):
clear `first` if it holds the user, else clear `second` if it does. -/
def clearUser (uid : Nat) (s : Session) : Session :=
  if s.first = some uid then { s with first := none }
  else if s.second = some uid then { s with second := none }
  else s

/-- The scan loop of `user_disconnected` (one_to_one.rs lines 146-155):
clear the user's slot in every session, and record in a single overwritten
option the id of the last session seen with both slots empty. -/
def clearSessions (uid : Nat) : List (Nat × Session) →
    List (Nat × Session) × Option Nat
  | [] => ([], none)
  | (sid, s) :: rest =>
      let s := clearUser uid s
      let here := if s.first = none ∧ s.second = none then some sid else none
      let scanned := clearSessions uid rest
      ((sid, s) :: scanned.1, match scanned.2 with | some x => some x | none => here)

/-- The server's disconnect handler `user_disconnected`, from
one_to_one.rs lines 144-161: clear slots, remove the (single) recorded
empty session, drop the Connection Registry entry. -/
def user_disconnected (uid : Nat) (st : ServerState) : ServerState :=
  let scanned := clearSessions uid st.sessions
  let sessions' := match scanned.2 with
    | some sid => removeSession scanned.1 sid
    | none => scanned.1
  { connections := st.connections.erase uid, sessions := sessions' }

/-- Registry insertion of `user_connected` (one_to_one.rs line 43),
restricted to its key set: `HashMap::insert` adds the key if absent. -/
def user_connected (uid : Nat) (st : ServerState) : ServerState :=
  { st with
      connections := if uid ∈ st.connections then st.connections else uid :: st.connections }

/-- States reachable by a sequential run of the server: endpoints connect,
connected endpoints send messages (join or negotiation) and disconnect.
A `user_message` step exists only when the handler does not panic. -/
inductive Reachable : ServerState → Prop where
  | init : Reachable ⟨[], []⟩
  | connect (st : ServerState) (uid : Nat) :
      Reachable st → Reachable (user_connected uid st)
  | message (st st' : ServerState) (uid : Nat) (m : SignalMessage) (out : Deliveries) :
      Reachable st → uid ∈ st.connections →
      user_message uid m st = some (st', out) → Reachable st'
  | close (st : ServerState) (uid : Nat) :
      Reachable st → uid ∈ st.connections → Reachable (user_disconnected uid st)

/-- Slot invariant of reachable server states: the occupant of a `first`
slot is always registered, and so is the occupant of a `second` slot as
long as `first` is occupied.  (A `second` slot may dangle after its holder
disconnects while also holding `first`, but then `first` is empty.) -/
def SlotInv (st : ServerState) : Prop :=
  ∀ sid s, (sid, s) ∈ st.sessions →
    (∀ u, s.first = some u → u ∈ st.connections) ∧
    (s.first ≠ none → ∀ v, s.second = some v → v ∈ st.connections)

/-- Endpoint-side coordinator state, from library/src/one_to_one.rs lines
72-78, restricted to the fields `send_message` reads: the data channel is
absent until `start` installs it, and is abstracted by an identifier. -/
structure NetworkManagerInner where
  session_id : Nat
  data_channel : Option Nat
deriving DecidableEq, Repr

/-- The coordinator's `send_message`, from library/src/one_to_one.rs lines
184-193: serialize, then write to the data channel only if one is
installed.  The result is the (unchanged) coordinator state paired with
the transport writes performed, each a channel id and the bytes written;
`encode` abstracts the MessagePack serialization. -/
def send_message {α : Type} (encode : α → List Nat) (inner : NetworkManagerInner)
    (message : α) : NetworkManagerInner × List (Nat × List Nat) :=
  let bytes := encode message
  match inner.data_channel with
  | some channel => (inner, [(channel, bytes)])
  | none => (inner, [])

/-! Association-list lemmas. -/

theorem lookup_setSession_self (l : List (Nat × Session)) (sid : Nat) (s : Session) :
    lookupSession (setSession l sid s) sid = some s := by
  induction l with
  | nil => simp [setSession, lookupSession]
  | cons p rest ih =>
      obtain ⟨k, v⟩ := p
      by_cases h : k = sid <;> simp [setSession, lookupSession, h, ih]

theorem lookup_setSession_ne (l : List (Nat × Session)) (sid sid' : Nat) (s : Session)
    (h : sid' ≠ sid) :
    lookupSession (setSession l sid s) sid' = lookupSession l sid' := by
  induction l with
  | nil => simp [setSession, lookupSession, h, Ne.symm h]
  | cons p rest ih =>
      obtain ⟨k, v⟩ := p
      by_cases hk : k = sid
      · subst hk
        simp [setSession, lookupSession, h, Ne.symm h]
      · by_cases hk' : k = sid' <;>
          simp [setSession, lookupSession, hk, hk', h, Ne.symm h, ih]

theorem lookup_mem {l : List (Nat × Session)} {sid : Nat} {s : Session}
    (h : lookupSession l sid = some s) : (sid, s) ∈ l := by
  induction l with
  | nil => simp [lookupSession] at h
  | cons p rest ih =>
      obtain ⟨k, v⟩ := p
      by_cases hk : k = sid
      · subst hk
        simp [lookupSession] at h
        simp [h]
      · simp [lookupSession, hk] at h
        exact List.mem_cons_of_mem _ (ih h)

theorem lookup_eq_none_of_not_mem_keys {l : List (Nat × Session)} {sid : Nat}
    (h : sid ∉ l.map Prod.fst) : lookupSession l sid = none := by
  induction l with
  | nil => rfl
  | cons p rest ih =>
      obtain ⟨k, v⟩ := p
      rw [List.map_cons, List.mem_cons] at h
      push_neg at h
      simp [lookupSession, Ne.symm h.1, ih h.2]

theorem mem_setSession {l : List (Nat × Session)} {sid : Nat} {s : Session}
    {k : Nat} {v : Session} (h : (k, v) ∈ setSession l sid s) :
    (k = sid ∧ v = s) ∨ (k, v) ∈ l := by
  induction l with
  | nil =>
      simp [setSession] at h
      exact Or.inl h
  | cons p rest ih =>
      obtain ⟨k0, v0⟩ := p
      by_cases hk : k0 = sid
      · subst hk
        simp [setSession] at h
        rcases h with h | h
        · exact Or.inl h
        · exact Or.inr (List.mem_cons_of_mem _ h)
      · simp [setSession, hk] at h
        rcases h with h | h
        · exact Or.inr (by simp [h])
        · rcases ih h with h' | h'
          · exact Or.inl h'
          · exact Or.inr (List.mem_cons_of_mem _ h')

theorem mem_removeSession {l : List (Nat × Session)} {sid : Nat}
    {k : Nat} {v : Session} (h : (k, v) ∈ removeSession l sid) : (k, v) ∈ l := by
  induction l with
  | nil => simp [removeSession] at h
  | cons p rest ih =>
      obtain ⟨k0, v0⟩ := p
      by_cases hk : k0 = sid
      · simp [removeSession, hk] at h
        exact List.mem_cons_of_mem _ h
      · simp [removeSession, hk] at h
        rcases h with h | h
        · simp [h]
        · exact List.mem_cons_of_mem _ (ih h)

theorem lookup_removeSession_ne (l : List (Nat × Session)) (x sid : Nat) (h : x ≠ sid) :
    lookupSession (removeSession l x) sid = lookupSession l sid := by
  induction l with
  | nil => rfl
  | cons p rest ih =>
      obtain ⟨k, v⟩ := p
      by_cases hk : k = x
      · subst hk
        simp [removeSession, lookupSession, h]
      · simp [removeSession, lookupSession, hk, ih]

theorem lookup_removeSession_self (l : List (Nat × Session)) (sid : Nat)
    (hnd : (l.map Prod.fst).Nodup) :
    lookupSession (removeSession l sid) sid = none := by
  induction l with
  | nil => rfl
  | cons p rest ih =>
      obtain ⟨k, v⟩ := p
      simp at hnd
      by_cases hk : k = sid
      · subst hk
        simp [removeSession]
        exact lookup_eq_none_of_not_mem_keys (by simpa using hnd.1)
      · simp [removeSession, lookupSession, hk, ih hnd.2]

theorem clearSessions_fst (uid : Nat) (l : List (Nat × Session)) :
    (clearSessions uid l).1 = l.map fun p => (p.1, clearUser uid p.2) := by
  induction l with
  | nil => rfl
  | cons p rest ih =>
      obtain ⟨k, v⟩ := p
      simp [clearSessions, ih]

theorem lookup_map_clearUser (uid : Nat) (l : List (Nat × Session)) (sid : Nat) :
    lookupSession (l.map fun p => (p.1, clearUser uid p.2)) sid =
      (lookupSession l sid).map (clearUser uid) := by
  induction l with
  | nil => rfl
  | cons p rest ih =>
      obtain ⟨k, v⟩ := p
      by_cases hk : k = sid <;> simp [lookupSession, hk, ih]

/-! Small rewriting lemmas about sessions. -/

theorem flag_ite (s : Session) :
    (if s.offer_received then s else { s with offer_received := true }) =
      { s with offer_received := true } := by
  cases s with
  | mk f sec b => cases b <;> rfl

theorem flag_set_of_true {s : Session} (h : s.offer_received = true) :
    { s with offer_received := true } = s := by
  cases s with
  | mk f sec b => cases b <;> simp_all

theorem routeRecipient_flag (s : Session) :
    routeRecipient { s with offer_received := true } = routeRecipient s := rfl

/-! Equation lemmas for the server operations. -/

theorem join_vacant (st : ServerState) (uid sid : Nat)
    (h : lookupSession st.sessions sid = none) :
    user_message uid (.SessionJoin sid) st =
      some ({ st with sessions := setSession st.sessions sid ⟨some uid, none, false⟩ }, []) := by
  simp [user_message, h]

theorem join_second_first_some (st : ServerState) (uid sid f : Nat) (s : Session)
    (h : lookupSession st.sessions sid = some s) (hf : s.first = some f)
    (hfc : f ∈ st.connections) (huc : uid ∈ st.connections) :
    user_message uid (.SessionJoin sid) st =
      some ({ st with sessions := setSession st.sessions sid { s with second := some uid } },
            [(f, .SessionReady sid), (uid, .SessionReady sid)]) := by
  simp [user_message, h, hf, hfc, huc]

theorem join_second_first_none (st : ServerState) (uid sid : Nat) (s : Session)
    (h : lookupSession st.sessions sid = some s) (hf : s.first = none) :
    user_message uid (.SessionJoin sid) st =
      some ({ st with sessions := setSession st.sessions sid { s with second := some uid } },
            []) := by
  simp [user_message, h, hf]

theorem user_message_route (uid sid : Nat) (m : SignalMessage) (st : ServerState)
    (hm : routedSid m = some sid) :
    user_message uid m st = routeMsg sid m st := by
  cases m with
  | SessionJoin _ => simp [routedSid] at hm
  | SessionReady _ => simp [routedSid] at hm
  | Error _ _ => simp [routedSid] at hm
  | SdpOffer s p =>
      simp [routedSid] at hm
      subst hm; rfl
  | SdpAnswer s p =>
      simp [routedSid] at hm
      subst hm; rfl
  | IceCandidate s p =>
      simp [routedSid] at hm
      subst hm; rfl

theorem route_unknown (sid : Nat) (m : SignalMessage) (st : ServerState)
    (h : lookupSession st.sessions sid = none) :
    routeMsg sid m st = some (st, []) := by
  simp [routeMsg, h]

theorem route_missing (sid : Nat) (m : SignalMessage) (st : ServerState) (s : Session)
    (h : lookupSession st.sessions sid = some s) (hr : routeRecipient s = none) :
    routeMsg sid m st =
      some ({ st with
                sessions := setSession st.sessions sid { s with offer_received := true } },
            []) := by
  simp [routeMsg, h, flag_ite, routeRecipient_flag, hr]

theorem route_delivered (sid : Nat) (m : SignalMessage) (st : ServerState) (s : Session)
    (r : Nat) (h : lookupSession st.sessions sid = some s)
    (hr : routeRecipient s = some r) (hc : r ∈ st.connections) :
    routeMsg sid m st =
      some ({ st with
                sessions := setSession st.sessions sid { s with offer_received := true } },
            [(r, m)]) := by
  simp [routeMsg, h, flag_ite, routeRecipient_flag, hr, hc]

/-! Panic lemmas: the registry `unwrap`s fail exactly when the looked-up
endpoint is not registered. -/

theorem join_second_panic (st : ServerState) (uid sid f : Nat) (s : Session)
    (h : lookupSession st.sessions sid = some s) (hf : s.first = some f)
    (hp : ¬(f ∈ st.connections ∧ uid ∈ st.connections)) :
    user_message uid (.SessionJoin sid) st = none := by
  by_cases hfc : f ∈ st.connections
  · have huc : uid ∉ st.connections := fun hu => hp ⟨hfc, hu⟩
    simp [user_message, h, hf, hfc, huc]
  · simp [user_message, h, hf, hfc]

theorem route_panic (sid : Nat) (m : SignalMessage) (st : ServerState) (s : Session)
    (r : Nat) (h : lookupSession st.sessions sid = some s)
    (hr : routeRecipient s = some r) (hc : r ∉ st.connections) :
    routeMsg sid m st = none := by
  simp [routeMsg, h, flag_ite, routeRecipient_flag, hr, hc]

/-! Preservation of the slot invariant. -/

theorem mem_user_connected {u : Nat} (st : ServerState) (uid : Nat)
    (h : u ∈ st.connections) : u ∈ (user_connected uid st).connections := by
  by_cases hm : uid ∈ st.connections
  · simpa [user_connected, hm] using h
  · simp [user_connected, hm]
    exact Or.inr h

theorem slotInv_connect {st : ServerState} (hinv : SlotInv st) (uid : Nat) :
    SlotInv (user_connected uid st) := by
  intro sid s hmem
  have h' := hinv sid s hmem
  exact ⟨fun u hu => mem_user_connected st uid (h'.1 u hu),
         fun hne v hv => mem_user_connected st uid (h'.2 hne v hv)⟩

theorem slotInv_setSession {st : ServerState} (hinv : SlotInv st) {sid : Nat} {s : Session}
    (h1 : ∀ u, s.first = some u → u ∈ st.connections)
    (h2 : s.first ≠ none → ∀ v, s.second = some v → v ∈ st.connections) :
    SlotInv { st with sessions := setSession st.sessions sid s } := by
  intro sid2 s2 hmem
  rcases mem_setSession hmem with ⟨hk, hv⟩ | hmem'
  · subst hv
    exact ⟨h1, h2⟩
  · exact hinv sid2 s2 hmem'

theorem slotInv_routeMsg {st st' : ServerState} {sid : Nat} {m : SignalMessage}
    {out : Deliveries} (hinv : SlotInv st)
    (heq : routeMsg sid m st = some (st', out)) : SlotInv st' := by
  rcases hl : lookupSession st.sessions sid with _ | s
  · rw [route_unknown sid m st hl] at heq
    cases heq
    exact hinv
  · have hs := hinv sid s (lookup_mem hl)
    rcases hr : routeRecipient s with _ | r
    · rw [route_missing sid m st s hl hr] at heq
      cases heq
      exact slotInv_setSession hinv hs.1 hs.2
    · by_cases hc : r ∈ st.connections
      · rw [route_delivered sid m st s r hl hr hc] at heq
        cases heq
        exact slotInv_setSession hinv hs.1 hs.2
      · rw [route_panic sid m st s r hl hr hc] at heq
        cases heq

theorem slotInv_message {st st' : ServerState} {uid : Nat} {m : SignalMessage}
    {out : Deliveries} (hinv : SlotInv st) (huid : uid ∈ st.connections)
    (heq : user_message uid m st = some (st', out)) : SlotInv st' := by
  cases m with
  | SessionJoin sid =>
      rcases hl : lookupSession st.sessions sid with _ | s
      · rw [join_vacant st uid sid hl] at heq
        cases heq
        refine slotInv_setSession hinv ?_ ?_
        · intro u hu
          cases hu
          exact huid
        · intro _ v hv
          cases hv
      · rcases hf : s.first with _ | f
        · rw [join_second_first_none st uid sid s hl hf] at heq
          cases heq
          refine slotInv_setSession hinv ?_ ?_
          · intro u hu
            rw [show ({ s with second := some uid } : Session).first = s.first from rfl,
              hf] at hu
            cases hu
          · intro hne v hv
            exact absurd (show ({ s with second := some uid } : Session).first = none by
              rw [show ({ s with second := some uid } : Session).first = s.first from rfl, hf])
              hne
        · by_cases hfc : f ∈ st.connections
          · by_cases huc : uid ∈ st.connections
            · rw [join_second_first_some st uid sid f s hl hf hfc huc] at heq
              cases heq
              refine slotInv_setSession hinv ?_ ?_
              · intro u hu
                rw [show ({ s with second := some uid } : Session).first = s.first from rfl,
                  hf] at hu
                cases hu
                exact hfc
              · intro _ v hv
                cases hv
                exact huc
            · rw [join_second_panic st uid sid f s hl hf (fun hp => huc hp.2)] at heq
              cases heq
          · rw [join_second_panic st uid sid f s hl hf (fun hp => hfc hp.1)] at heq
            cases heq
  | SessionReady sid =>
      simp [user_message] at heq
      rw [← heq.1]
      exact hinv
  | Error sid d =>
      simp [user_message] at heq
      rw [← heq.1]
      exact hinv
  | SdpOffer sid p =>
      rw [user_message_route uid sid (SignalMessage.SdpOffer sid p) st rfl] at heq
      exact slotInv_routeMsg hinv heq
  | SdpAnswer sid p =>
      rw [user_message_route uid sid (SignalMessage.SdpAnswer sid p) st rfl] at heq
      exact slotInv_routeMsg hinv heq
  | IceCandidate sid p =>
      rw [user_message_route uid sid (SignalMessage.IceCandidate sid p) st rfl] at heq
      exact slotInv_routeMsg hinv heq

theorem slotInv_disconnected {st : ServerState} (hinv : SlotInv st) (uid : Nat) :
    SlotInv (user_disconnected uid st) := by
  intro sid s hmem
  have hmem2 : (sid, s) ∈ (clearSessions uid st.sessions).1 := by
    simp only [user_disconnected] at hmem
    rcases hdel : (clearSessions uid st.sessions).2 with _ | x
    · rw [hdel] at hmem
      exact hmem
    · rw [hdel] at hmem
      exact mem_removeSession hmem
  rw [clearSessions_fst] at hmem2
  obtain ⟨⟨k0, v0⟩, hmem0, hs⟩ := List.mem_map.mp hmem2
  injection hs with hk hv
  subst hv
  have hv0 := hinv k0 v0 hmem0
  by_cases h1 : v0.first = some uid
  · constructor
    · intro u hu
      rw [show (clearUser uid v0).first = none by simp [clearUser, h1]] at hu
      cases hu
    · intro hne
      exact absurd (show (clearUser uid v0).first = none by simp [clearUser, h1]) hne
  · by_cases h2 : v0.second = some uid
    · have hcl : clearUser uid v0 = { v0 with second := none } := by
        simp [clearUser, h1, h2]
      constructor
      · intro u hu
        rw [hcl] at hu
        have hu' : v0.first = some u := hu
        have hne : u ≠ uid := fun hh => h1 (by rw [hu', hh])
        exact (List.mem_erase_of_ne hne).mpr (hv0.1 u hu')
      · intro _ v hv
        rw [hcl] at hv
        cases hv
    · have hcl : clearUser uid v0 = v0 := by
        simp [clearUser, h1, h2]
      rw [hcl]
      constructor
      · intro u hu
        have hne : u ≠ uid := fun hh => h1 (by rw [hu, hh])
        exact (List.mem_erase_of_ne hne).mpr (hv0.1 u hu)
      · intro hne v hv
        have hnev : v ≠ uid := fun hh => h2 (by rw [hv, hh])
        exact (List.mem_erase_of_ne hnev).mpr (hv0.2 hne v hv)

theorem reachable_slotInv {st : ServerState} (h : Reachable st) : SlotInv st := by
  induction h with
  | init =>
      intro sid s hmem
      simp at hmem
  | connect st0 uid _ ih => exact slotInv_connect ih uid
  | message st0 st1 uid m out _ huid heq ih => exact slotInv_message ih huid heq
  | close st0 uid _ huid ih => exact slotInv_disconnected ih uid

theorem routeMsg_total {st : ServerState} {sid : Nat} {m : SignalMessage}
    (hinv : SlotInv st) : routeMsg sid m st ≠ none := by
  rcases hl : lookupSession st.sessions sid with _ | s
  · rw [route_unknown sid m st hl]
    simp
  · rcases hr : routeRecipient s with _ | r
    · rw [route_missing sid m st s hl hr]
      simp
    · have hs := hinv sid s (lookup_mem hl)
      have hrc : r ∈ st.connections := by
        unfold routeRecipient at hr
        rcases hff : s.first with _ | u
        · rw [hff] at hr
          simp at hr
        · rw [hff] at hr
          simp at hr
          exact hs.2 (by rw [hff]; simp) r hr
      rw [route_delivered sid m st s r hl hr hrc]
      simp

/-! Monotonicity of the offer_received flag. -/

theorem clearUser_flag (uid : Nat) (s : Session) :
    (clearUser uid s).offer_received = s.offer_received := by
  unfold clearUser
  split
  · rfl
  · split <;> rfl

theorem clearSessions_keys (uid : Nat) (l : List (Nat × Session)) :
    ((clearSessions uid l).1).map Prod.fst = l.map Prod.fst := by
  induction l with
  | nil => rfl
  | cons p rest ih =>
      obtain ⟨k, v⟩ := p
      simp [clearSessions, ih]

theorem lookup_clearSessions (uid : Nat) (l : List (Nat × Session)) (sid : Nat) :
    lookupSession (clearSessions uid l).1 sid =
      (lookupSession l sid).map (clearUser uid) := by
  rw [clearSessions_fst]
  exact lookup_map_clearUser uid l sid

theorem flag_mono_setflag (st : ServerState) (sid2 sid : Nat) (s s2 : Session)
    (hs : lookupSession st.sessions sid = some s) (hflag : s.offer_received = true)
    (hl : lookupSession st.sessions sid2 = some s2) :
    ∃ s', lookupSession (setSession st.sessions sid2 { s2 with offer_received := true })
        sid = some s' ∧ s'.offer_received = true := by
  by_cases h2 : sid2 = sid
  · subst h2
    exact ⟨{ s2 with offer_received := true }, lookup_setSession_self _ _ _, rfl⟩
  · refine ⟨s, ?_, hflag⟩
    rw [lookup_setSession_ne _ _ _ _ (fun hh => h2 hh.symm)]
    exact hs

theorem flag_mono_route (st st' : ServerState) (sid2 sid : Nat) (m : SignalMessage)
    (out : Deliveries) (s : Session)
    (hs : lookupSession st.sessions sid = some s) (hflag : s.offer_received = true)
    (heq : routeMsg sid2 m st = some (st', out)) :
    ∃ s', lookupSession st'.sessions sid = some s' ∧ s'.offer_received = true := by
  rcases hl : lookupSession st.sessions sid2 with _ | s2
  · rw [route_unknown sid2 m st hl] at heq
    cases heq
    exact ⟨s, hs, hflag⟩
  · rcases hr : routeRecipient s2 with _ | r
    · rw [route_missing sid2 m st s2 hl hr] at heq
      cases heq
      exact flag_mono_setflag st sid2 sid s s2 hs hflag hl
    · by_cases hc : r ∈ st.connections
      · rw [route_delivered sid2 m st s2 r hl hr hc] at heq
        cases heq
        exact flag_mono_setflag st sid2 sid s s2 hs hflag hl
      · rw [route_panic sid2 m st s2 r hl hr hc] at heq
        cases heq

theorem flag_mono_join_second (st : ServerState) (u sid2 sid : Nat) (s s2 : Session)
    (hs : lookupSession st.sessions sid = some s) (hflag : s.offer_received = true)
    (hl : lookupSession st.sessions sid2 = some s2) :
    ∃ s', lookupSession (setSession st.sessions sid2 { s2 with second := some u })
        sid = some s' ∧ s'.offer_received = true := by
  by_cases h2 : sid2 = sid
  · subst h2
    rw [hs] at hl
    cases hl
    exact ⟨{ s with second := some u }, lookup_setSession_self _ _ _, hflag⟩
  · refine ⟨s, ?_, hflag⟩
    rw [lookup_setSession_ne _ _ _ _ (fun hh => h2 hh.symm)]
    exact hs

theorem flag_mono_message (st st' : ServerState) (u : Nat) (m : SignalMessage)
    (out : Deliveries) (sid : Nat) (s : Session)
    (hs : lookupSession st.sessions sid = some s) (hflag : s.offer_received = true)
    (heq : user_message u m st = some (st', out)) :
    ∃ s', lookupSession st'.sessions sid = some s' ∧ s'.offer_received = true := by
  cases m with
  | SessionJoin sid2 =>
      rcases hl : lookupSession st.sessions sid2 with _ | s2
      · rw [join_vacant st u sid2 hl] at heq
        cases heq
        have h2 : sid2 ≠ sid := fun hh => by
          rw [hh, hs] at hl
          cases hl
        refine ⟨s, ?_, hflag⟩
        rw [lookup_setSession_ne _ _ _ _ (Ne.symm h2)]
        exact hs
      · rcases hf : s2.first with _ | f
        · rw [join_second_first_none st u sid2 s2 hl hf] at heq
          cases heq
          exact flag_mono_join_second st u sid2 sid s s2 hs hflag hl
        · by_cases hfc : f ∈ st.connections
          · by_cases huc : u ∈ st.connections
            · rw [join_second_first_some st u sid2 f s2 hl hf hfc huc] at heq
              cases heq
              exact flag_mono_join_second st u sid2 sid s s2 hs hflag hl
            · rw [join_second_panic st u sid2 f s2 hl hf (fun hp => huc hp.2)] at heq
              cases heq
          · rw [join_second_panic st u sid2 f s2 hl hf (fun hp => hfc hp.1)] at heq
            cases heq
  | SessionReady sid2 =>
      simp [user_message] at heq
      rw [← heq.1]
      exact ⟨s, hs, hflag⟩
  | Error sid2 d =>
      simp [user_message] at heq
      rw [← heq.1]
      exact ⟨s, hs, hflag⟩
  | SdpOffer sid2 p =>
      rw [user_message_route u sid2 (SignalMessage.SdpOffer sid2 p) st rfl] at heq
      exact flag_mono_route st st' sid2 sid _ out s hs hflag heq
  | SdpAnswer sid2 p =>
      rw [user_message_route u sid2 (SignalMessage.SdpAnswer sid2 p) st rfl] at heq
      exact flag_mono_route st st' sid2 sid _ out s hs hflag heq
  | IceCandidate sid2 p =>
      rw [user_message_route u sid2 (SignalMessage.IceCandidate sid2 p) st rfl] at heq
      exact flag_mono_route st st' sid2 sid _ out s hs hflag heq

theorem flag_mono_disconnected (st : ServerState) (u sid : Nat) (s : Session)
    (hnd : (st.sessions.map Prod.fst).Nodup)
    (hs : lookupSession st.sessions sid = some s) (hflag : s.offer_received = true) :
    lookupSession (user_disconnected u st).sessions sid = none ∨
    ∃ s', lookupSession (user_disconnected u st).sessions sid = some s' ∧
      s'.offer_received = true := by
  have hcl : lookupSession (clearSessions u st.sessions).1 sid = some (clearUser u s) := by
    rw [lookup_clearSessions, hs]
    rfl
  have hndc : (((clearSessions u st.sessions).1).map Prod.fst).Nodup := by
    rw [clearSessions_keys]
    exact hnd
  rcases hdel : (clearSessions u st.sessions).2 with _ | x
  · right
    refine ⟨clearUser u s, ?_, by rw [clearUser_flag]; exact hflag⟩
    simp only [user_disconnected, hdel]
    exact hcl
  · by_cases hx : x = sid
    · subst hx
      left
      simp only [user_disconnected, hdel]
      exact lookup_removeSession_self _ _ hndc
    · right
      refine ⟨clearUser u s, ?_, by rw [clearUser_flag]; exact hflag⟩
      simp only [user_disconnected, hdel]
      rw [lookup_removeSession_ne _ _ _ hx]
      exact hcl

/-! Claim theorems. -/

/-- C1: for any SessionId absent from the Session Table, a SessionJoin
from a connected endpoint A followed by a SessionJoin from a distinct
connected endpoint B leaves the session with first = A and second = B and
delivers exactly one SessionReady(session_id) to A's sink and exactly one
to B's sink, with no delivery to any other endpoint's sink. -/
theorem pairing_fresh_two_joins (st : ServerState) (sid A B : Nat)
    (hfresh : lookupSession st.sessions sid = none)
    (hA : A ∈ st.connections) (hB : B ∈ st.connections) (hAB : A ≠ B) :
    user_message A (.SessionJoin sid) st =
      some ({ st with sessions := setSession st.sessions sid ⟨some A, none, false⟩ }, []) ∧
    user_message B (.SessionJoin sid)
        { st with sessions := setSession st.sessions sid ⟨some A, none, false⟩ } =
      some ({ st with
                sessions := setSession (setSession st.sessions sid ⟨some A, none, false⟩)
                  sid ⟨some A, some B, false⟩ },
            [(A, .SessionReady sid), (B, .SessionReady sid)]) ∧
    lookupSession
        (setSession (setSession st.sessions sid ⟨some A, none, false⟩) sid
          ⟨some A, some B, false⟩) sid = some ⟨some A, some B, false⟩ := by
  refine ⟨join_vacant st A sid hfresh, ?_, lookup_setSession_self _ _ _⟩
  exact join_second_first_some
    { st with sessions := setSession st.sessions sid ⟨some A, none, false⟩ }
    B sid A ⟨some A, none, false⟩ (lookup_setSession_self _ _ _) rfl hA hB

/-- Witness for C1 at the concrete state with endpoints 1 and 2 connected
and an empty Session Table, joining session 42. -/
theorem pairing_fresh_two_joins_witness :
    user_message 1 (SignalMessage.SessionJoin 42) ⟨[1, 2], []⟩ =
      some (⟨[1, 2], [(42, ⟨some 1, none, false⟩)]⟩, []) ∧
    user_message 2 (SignalMessage.SessionJoin 42)
        ⟨[1, 2], [(42, ⟨some 1, none, false⟩)]⟩ =
      some (⟨[1, 2], [(42, ⟨some 1, some 2, false⟩)]⟩,
            [(1, SignalMessage.SessionReady 42), (2, SignalMessage.SessionReady 42)]) ∧
    lookupSession [(42, ⟨some 1, some 2, false⟩)] 42 = some ⟨some 1, some 2, false⟩ := by
  have h := pairing_fresh_two_joins ⟨[1, 2], []⟩ 42 1 2 rfl (by decide) (by decide)
    (by decide)
  simpa [setSession] using h

/-- C2 counterexample: endpoints 1, 2, 3 connect; 1 and 2 pair in session
42; endpoint 1 (the first slot) disconnects; endpoint 3 then joins
session 42.  The code stores 3 in the second slot, evicting the surviving
endpoint 2, leaves the first slot empty, and delivers no SessionReady —
not the SecondJoined outcome the claim asserts regardless of which slot
the survivor held. -/
theorem third_join_after_first_slot_disconnect_cex :
    user_connected 3 (user_connected 2 (user_connected 1 ⟨[], []⟩)) =
      ⟨[3, 2, 1], []⟩ ∧
    user_message 1 (SignalMessage.SessionJoin 42) ⟨[3, 2, 1], []⟩ =
      some (⟨[3, 2, 1], [(42, ⟨some 1, none, false⟩)]⟩, []) ∧
    user_message 2 (SignalMessage.SessionJoin 42)
        ⟨[3, 2, 1], [(42, ⟨some 1, none, false⟩)]⟩ =
      some (⟨[3, 2, 1], [(42, ⟨some 1, some 2, false⟩)]⟩,
            [(1, SignalMessage.SessionReady 42), (2, SignalMessage.SessionReady 42)]) ∧
    user_disconnected 1 ⟨[3, 2, 1], [(42, ⟨some 1, some 2, false⟩)]⟩ =
      ⟨[3, 2], [(42, ⟨none, some 2, false⟩)]⟩ ∧
    user_message 3 (SignalMessage.SessionJoin 42)
        ⟨[3, 2], [(42, ⟨none, some 2, false⟩)]⟩ =
      some (⟨[3, 2], [(42, ⟨none, some 3, false⟩)]⟩, []) := by
  decide

/-- C2 amended: the SecondJoined outcome holds when the surviving
endpoint occupies the first slot: a SessionJoin from a connected third
endpoint then fills the second slot and SessionReady is delivered to the
survivor and to the new joiner.  (When the survivor occupies the second
slot instead, the joiner overwrites it and nothing is delivered.) -/
theorem third_join_survivor_in_first_slot (st : ServerState) (sid f t : Nat) (b : Bool)
    (hs : lookupSession st.sessions sid = some ⟨some f, none, b⟩)
    (hf : f ∈ st.connections) (ht : t ∈ st.connections) :
    user_message t (.SessionJoin sid) st =
      some ({ st with sessions := setSession st.sessions sid ⟨some f, some t, b⟩ },
            [(f, .SessionReady sid), (t, .SessionReady sid)]) :=
  join_second_first_some st t sid f ⟨some f, none, b⟩ hs rfl hf ht

/-- Witness for the amended C2: survivor 2 holds the first slot of
session 42, third endpoint 3 joins. -/
theorem third_join_survivor_in_first_slot_witness :
    user_message 3 (SignalMessage.SessionJoin 42)
        ⟨[2, 3], [(42, ⟨some 2, none, false⟩)]⟩ =
      some (⟨[2, 3], [(42, ⟨some 2, some 3, false⟩)]⟩,
            [(2, SignalMessage.SessionReady 42), (3, SignalMessage.SessionReady 42)]) := by
  have h := third_join_survivor_in_first_slot ⟨[2, 3], [(42, ⟨some 2, none, false⟩)]⟩
    42 2 3 false (by decide) (by decide) (by decide)
  simpa [setSession] using h

/-- C3 (code bug): disconnect at a concrete state where endpoint 7 is the
sole occupant of sessions 10 and 11.  Both slots are cleared and the
registry entry removed, but only session 11 — the last empty session the
scan recorded in its single overwritten option — is deleted; session 10
remains in the table with both slots empty, contradicting the claim that
every session emptied by the disconnect is deleted. -/
theorem disconnect_keeps_one_empty_session :
    user_disconnected 7
        ⟨[7], [(10, ⟨some 7, none, false⟩), (11, ⟨some 7, none, false⟩)]⟩ =
      ⟨[], [(10, ⟨none, none, false⟩)]⟩ := by
  decide

/-- C4: for a routed negotiation or candidate message whose session
exists, the recipient is the second slot if the first is occupied, else
the first slot; if the computed slot is empty the message is dropped with
no delivery, otherwise the message is forwarded unchanged to the computed
recipient's sink — independently of which endpoint sent it. -/
theorem route_recipient_rule (st : ServerState) (uid sid : Nat) (m : SignalMessage)
    (s : Session) (hm : routedSid m = some sid)
    (hs : lookupSession st.sessions sid = some s) :
    (∀ r, routeRecipient s = some r → r ∈ st.connections →
       user_message uid m st =
         some ({ st with
                   sessions := setSession st.sessions sid { s with offer_received := true } },
               [(r, m)])) ∧
    (routeRecipient s = none →
       user_message uid m st =
         some ({ st with
                   sessions := setSession st.sessions sid { s with offer_received := true } },
               [])) := by
  constructor
  · intro r hr hc
    rw [user_message_route uid sid m st hm]
    exact route_delivered sid m st s r hs hr hc
  · intro hr
    rw [user_message_route uid sid m st hm]
    exact route_missing sid m st s hs hr

/-- Witness for C4: a paired session 42 forwards the offer verbatim to
the second slot holder, and session 43 with an empty second slot drops
the answer with no delivery. -/
theorem route_recipient_rule_witness :
    user_message 1 (SignalMessage.SdpOffer 42 "a")
        ⟨[1, 2], [(42, ⟨some 1, some 2, false⟩), (43, ⟨some 1, none, false⟩)]⟩ =
      some (⟨[1, 2], [(42, ⟨some 1, some 2, true⟩), (43, ⟨some 1, none, false⟩)]⟩,
            [(2, SignalMessage.SdpOffer 42 "a")]) ∧
    user_message 1 (SignalMessage.SdpAnswer 43 "b")
        ⟨[1, 2], [(42, ⟨some 1, some 2, false⟩), (43, ⟨some 1, none, false⟩)]⟩ =
      some (⟨[1, 2], [(42, ⟨some 1, some 2, false⟩), (43, ⟨some 1, none, true⟩)]⟩,
            []) := by
  constructor
  · have h := (route_recipient_rule
      ⟨[1, 2], [(42, ⟨some 1, some 2, false⟩), (43, ⟨some 1, none, false⟩)]⟩
      1 42 (SignalMessage.SdpOffer 42 "a") ⟨some 1, some 2, false⟩ rfl (by decide)).1
      2 rfl (by decide)
    simpa [setSession] using h
  · have h := (route_recipient_rule
      ⟨[1, 2], [(42, ⟨some 1, some 2, false⟩), (43, ⟨some 1, none, false⟩)]⟩
      1 43 (SignalMessage.SdpAnswer 43 "b") ⟨some 1, none, false⟩ rfl (by decide)).2
      rfl
    simpa [setSession] using h

/-- C5 counterexample: routing an offer for session 42 whose second slot
is empty delivers nothing, but the Session Table is not left completely
unchanged: offer_received is set to true before the missing-peer check. -/
theorem route_single_slot_cex :
    user_message 1 (SignalMessage.SdpOffer 42 "x")
        ⟨[1], [(42, ⟨some 1, none, false⟩)]⟩ =
      some (⟨[1], [(42, ⟨some 1, none, true⟩)]⟩, []) ∧
    (⟨[1], [(42, ⟨some 1, none, true⟩)]⟩ : ServerState) ≠
      ⟨[1], [(42, ⟨some 1, none, false⟩)]⟩ := by
  decide

/-- C5 amended: for a session with exactly one occupied slot, routing a
negotiation message delivers nothing to any sink, and the only change to
the Session Table is that the session's offer_received flag is set to
true; slots and all other sessions are untouched. -/
theorem route_single_slot_only_flag (st : ServerState) (uid sid : Nat)
    (m : SignalMessage) (s : Session) (hm : routedSid m = some sid)
    (hs : lookupSession st.sessions sid = some s)
    (hone : (s.first ≠ none ∧ s.second = none) ∨ (s.first = none ∧ s.second ≠ none)) :
    user_message uid m st =
      some ({ st with
                sessions := setSession st.sessions sid { s with offer_received := true } },
            []) := by
  rw [user_message_route uid sid m st hm]
  apply route_missing sid m st s hs
  rcases hone with ⟨h1, h2⟩ | ⟨h1, h2⟩
  · obtain ⟨u, hu⟩ := Option.ne_none_iff_exists'.mp h1
    simp [routeRecipient, hu, h2]
  · simp [routeRecipient, h1]

/-- Witness for the amended C5: session 42 holds only its second slot;
routing an answer delivers nothing and only sets the flag. -/
theorem route_single_slot_only_flag_witness :
    user_message 5 (SignalMessage.SdpAnswer 42 "y")
        ⟨[1], [(42, ⟨none, some 1, false⟩)]⟩ =
      some (⟨[1], [(42, ⟨none, some 1, true⟩)]⟩, []) := by
  have h := route_single_slot_only_flag ⟨[1], [(42, ⟨none, some 1, false⟩)]⟩ 5 42
    (SignalMessage.SdpAnswer 42 "y") ⟨none, some 1, false⟩ rfl (by decide)
    (Or.inr ⟨rfl, by decide⟩)
  simpa [setSession] using h

/-- C6: a SessionJoin for a session whose two slots are both occupied
overwrites the second slot with the joiner, leaves the first slot
unchanged, and sends SessionReady to the first slot holder and the
joiner — no Error message is delivered to anyone. -/
theorem join_full_overwrites_second (st : ServerState) (uid sid f x : Nat) (b : Bool)
    (hs : lookupSession st.sessions sid = some ⟨some f, some x, b⟩)
    (hf : f ∈ st.connections) (hu : uid ∈ st.connections) :
    user_message uid (.SessionJoin sid) st =
      some ({ st with sessions := setSession st.sessions sid ⟨some f, some uid, b⟩ },
            [(f, .SessionReady sid), (uid, .SessionReady sid)]) :=
  join_second_first_some st uid sid f ⟨some f, some x, b⟩ hs rfl hf hu

/-- Witness for C6: endpoint 3 joins the full session 42 = (1, 2); slot
two becomes 3 and both 1 and 3 receive SessionReady. -/
theorem join_full_overwrites_second_witness :
    user_message 3 (SignalMessage.SessionJoin 42)
        ⟨[1, 2, 3], [(42, ⟨some 1, some 2, true⟩)]⟩ =
      some (⟨[1, 2, 3], [(42, ⟨some 1, some 3, true⟩)]⟩,
            [(1, SignalMessage.SessionReady 42), (3, SignalMessage.SessionReady 42)]) := by
  have h := join_full_overwrites_second ⟨[1, 2, 3], [(42, ⟨some 1, some 2, true⟩)]⟩
    3 42 1 2 true (by decide) (by decide) (by decide)
  simpa [setSession] using h

/-- C9: the coordinator's send_message returns with no transport write,
no buffering and no error signal when no data channel is installed, and
writes the serialized payload to the channel when one is. -/
theorem send_message_drops_when_closed {α : Type} (encode : α → List Nat)
    (inner : NetworkManagerInner) (m : α) :
    (inner.data_channel = none → send_message encode inner m = (inner, [])) ∧
    (∀ ch, inner.data_channel = some ch →
       send_message encode inner m = (inner, [(ch, encode m)])) := by
  constructor
  · intro h
    simp [send_message, h]
  · intro ch h
    simp [send_message, h]

/-- Witness for C9 with a unary encoding: a closed coordinator performs
no write; an open one writes the encoded payload to its channel. -/
theorem send_message_drops_when_closed_witness :
    send_message (fun n => [n]) ⟨7, none⟩ 5 = (⟨7, none⟩, []) ∧
    send_message (fun n => [n]) ⟨7, some 3⟩ 5 = (⟨7, some 3⟩, [(3, [5])]) :=
  ⟨(send_message_drops_when_closed (fun n => [n]) ⟨7, none⟩ 5).1 rfl,
   (send_message_drops_when_closed (fun n => [n]) ⟨7, some 3⟩ 5).2 3 rfl⟩

/-- C10: a SessionJoin for an existing session whose first slot is empty
stores the joiner into the second slot (replacing any occupant) and
delivers nothing; SessionReady is emitted only when the first slot is
occupied at the moment the second slot is written. -/
theorem join_no_first_slot (st : ServerState) (uid sid : Nat) :
    (∀ (x : Option Nat) (b : Bool),
       lookupSession st.sessions sid = some ⟨none, x, b⟩ →
       user_message uid (.SessionJoin sid) st =
         some ({ st with sessions := setSession st.sessions sid ⟨none, some uid, b⟩ },
               [])) ∧
    (∀ s st' out, lookupSession st.sessions sid = some s →
       user_message uid (.SessionJoin sid) st = some (st', out) → out ≠ [] →
       s.first ≠ none) := by
  constructor
  · intro x b h
    exact join_second_first_none st uid sid ⟨none, x, b⟩ h rfl
  · intro s st' out h heq hne hfirst
    rw [join_second_first_none st uid sid s h hfirst] at heq
    cases heq
    exact hne rfl

/-- Witness for C10: session 42 holds only second = 9; joiner 3 replaces
it and nothing is delivered, and a delivery in that state implies an
occupied first slot (vacuously checked through the theorem). -/
theorem join_no_first_slot_witness :
    user_message 3 (SignalMessage.SessionJoin 42)
        ⟨[3], [(42, ⟨none, some 9, true⟩)]⟩ =
      some (⟨[3], [(42, ⟨none, some 3, true⟩)]⟩, []) := by
  have h := (join_no_first_slot ⟨[3], [(42, ⟨none, some 9, true⟩)]⟩ 3 42).1
    (some 9) true (by decide)
  simpa [setSession] using h

/-- C7: offer_received is false when a session entry is created; any
routed negotiation or candidate message for an existing session leaves
the entry's flag true (so the first one sets it); no connect, message or
disconnect step ever resets a true flag while the entry lives (the flag
flips at most once); and a negotiation arriving while the flag is already
true is forwarded to the computed recipient exactly like the first — only
the flag assignment is skipped, no message is lost. -/
theorem offer_received_lifecycle (st : ServerState) (uid sid : Nat) :
    (lookupSession st.sessions sid = none →
       user_message uid (.SessionJoin sid) st =
         some ({ st with sessions := setSession st.sessions sid ⟨some uid, none, false⟩ },
               [])) ∧
    (∀ m s st' out, routedSid m = some sid →
       lookupSession st.sessions sid = some s →
       user_message uid m st = some (st', out) →
       lookupSession st'.sessions sid = some { s with offer_received := true }) ∧
    (∀ s, (st.sessions.map Prod.fst).Nodup →
       lookupSession st.sessions sid = some s → s.offer_received = true →
       (∀ u, lookupSession (user_connected u st).sessions sid = some s) ∧
       (∀ u m st' out, user_message u m st = some (st', out) →
          ∃ s', lookupSession st'.sessions sid = some s' ∧ s'.offer_received = true) ∧
       (∀ u, lookupSession (user_disconnected u st).sessions sid = none ∨
          ∃ s', lookupSession (user_disconnected u st).sessions sid = some s' ∧
            s'.offer_received = true)) ∧
    (∀ m s r, routedSid m = some sid → lookupSession st.sessions sid = some s →
       s.offer_received = true → routeRecipient s = some r → r ∈ st.connections →
       user_message uid m st =
         some ({ st with sessions := setSession st.sessions sid s }, [(r, m)])) := by
  refine ⟨fun h => join_vacant st uid sid h, ?_, ?_, ?_⟩
  · intro m s st' out hm hl heq
    rw [user_message_route uid sid m st hm] at heq
    rcases hr : routeRecipient s with _ | r
    · rw [route_missing sid m st s hl hr] at heq
      cases heq
      exact lookup_setSession_self _ _ _
    · by_cases hc : r ∈ st.connections
      · rw [route_delivered sid m st s r hl hr hc] at heq
        cases heq
        exact lookup_setSession_self _ _ _
      · rw [route_panic sid m st s r hl hr hc] at heq
        cases heq
  · intro s hnd hl hflag
    exact ⟨fun u => hl,
           fun u m st' out heq => flag_mono_message st st' u m out sid s hl hflag heq,
           fun u => flag_mono_disconnected st u sid s hnd hl hflag⟩
  · intro m s r hm hl hflag hr hc
    rw [user_message_route uid sid m st hm]
    have h := route_delivered sid m st s r hl hr hc
    rwa [flag_set_of_true hflag] at h

/-- Witness for C7: creation leaves the flag false; an offer sets it;
the true flag survives a connect, a further message and a disconnect; and
a second offer is still forwarded verbatim with the table unchanged. -/
theorem offer_received_lifecycle_witness :
    user_message 1 (SignalMessage.SessionJoin 7) ⟨[1, 2], []⟩ =
      some (⟨[1, 2], [(7, ⟨some 1, none, false⟩)]⟩, []) ∧
    lookupSession [(42, (⟨some 1, some 2, true⟩ : Session))] 42 =
      some ⟨some 1, some 2, true⟩ ∧
    lookupSession
        (user_connected 5 ⟨[1, 2], [(42, ⟨some 1, some 2, true⟩)]⟩).sessions 42 =
      some ⟨some 1, some 2, true⟩ ∧
    (∃ s', lookupSession
        (⟨[1, 2], [(42, ⟨some 1, some 2, true⟩)]⟩ : ServerState).sessions 42 =
          some s' ∧ s'.offer_received = true) ∧
    (lookupSession
        (user_disconnected 1 ⟨[1, 2], [(42, ⟨some 1, some 2, true⟩)]⟩).sessions 42 =
          none ∨
      ∃ s', lookupSession
          (user_disconnected 1 ⟨[1, 2], [(42, ⟨some 1, some 2, true⟩)]⟩).sessions 42 =
            some s' ∧ s'.offer_received = true) ∧
    user_message 1 (SignalMessage.SdpOffer 42 "w")
        ⟨[1, 2], [(42, ⟨some 1, some 2, true⟩)]⟩ =
      some (⟨[1, 2], [(42, ⟨some 1, some 2, true⟩)]⟩,
            [(2, SignalMessage.SdpOffer 42 "w")]) := by
  have h1 := (offer_received_lifecycle ⟨[1, 2], []⟩ 1 7).1 rfl
  have h2 := (offer_received_lifecycle
    ⟨[1, 2], [(42, ⟨some 1, some 2, false⟩)]⟩ 1 42).2.1
    (SignalMessage.SdpOffer 42 "x") ⟨some 1, some 2, false⟩
    ⟨[1, 2], [(42, ⟨some 1, some 2, true⟩)]⟩ [(2, SignalMessage.SdpOffer 42 "x")]
    rfl (by decide) (by decide)
  have h3 := (offer_received_lifecycle
    ⟨[1, 2], [(42, ⟨some 1, some 2, true⟩)]⟩ 1 42).2.2.1
    ⟨some 1, some 2, true⟩ (by decide) (by decide) rfl
  have h4 := (offer_received_lifecycle
    ⟨[1, 2], [(42, ⟨some 1, some 2, true⟩)]⟩ 1 42).2.2.2
    (SignalMessage.SdpOffer 42 "w") ⟨some 1, some 2, true⟩ 2
    rfl (by decide) rfl rfl (by decide)
  refine ⟨by simpa [setSession] using h1, by simpa using h2, h3.1 5,
          h3.2.1 1 (SignalMessage.SdpAnswer 42 "z")
            ⟨[1, 2], [(42, ⟨some 1, some 2, true⟩)]⟩
            [(2, SignalMessage.SdpAnswer 42 "z")] (by decide),
          h3.2.2 1, by simpa [setSession] using h4⟩

/-- C8: in every reachable sequential state, a connected endpoint's
message is handled without any registry lookup failing (the panic branch,
embedded as a `none` result, is unreachable); and once an endpoint is
absent from the Connection Registry, every session slot still holding it
computes no recipient, so routing addressed at it yields the MissingPeer
outcome rather than a dangling delivery. -/
theorem reachable_routing_safety (st : ServerState) (hreach : Reachable st) :
    (∀ uid m, uid ∈ st.connections → user_message uid m st ≠ none) ∧
    (∀ e sid s, e ∉ st.connections → lookupSession st.sessions sid = some s →
       s.first = some e ∨ s.second = some e → routeRecipient s = none) := by
  have hinv := reachable_slotInv hreach
  constructor
  · intro uid m huid
    cases m with
    | SessionJoin sid =>
        rcases hl : lookupSession st.sessions sid with _ | s
        · rw [join_vacant st uid sid hl]
          simp
        · rcases hf : s.first with _ | f
          · rw [join_second_first_none st uid sid s hl hf]
            simp
          · have hfc := (hinv sid s (lookup_mem hl)).1 f hf
            rw [join_second_first_some st uid sid f s hl hf hfc huid]
            simp
    | SessionReady sid => simp [user_message]
    | Error sid d => simp [user_message]
    | SdpOffer sid p =>
        rw [user_message_route uid sid (SignalMessage.SdpOffer sid p) st rfl]
        exact routeMsg_total hinv
    | SdpAnswer sid p =>
        rw [user_message_route uid sid (SignalMessage.SdpAnswer sid p) st rfl]
        exact routeMsg_total hinv
    | IceCandidate sid p =>
        rw [user_message_route uid sid (SignalMessage.IceCandidate sid p) st rfl]
        exact routeMsg_total hinv
  · intro e sid s he hl hslot
    have hs := hinv sid s (lookup_mem hl)
    rcases hslot with hfe | hse
    · exact absurd (hs.1 e hfe) he
    · rcases hff : s.first with _ | u
      · simp [routeRecipient, hff]
      · exact absurd (hs.2 (by rw [hff]; simp) e hse) he

/-- Witness for C8: a freshly connected endpoint's join is handled
without panic, and in the reachable state where endpoint 1 joined session
42 twice and then disconnected, the dangling second slot computes no
recipient. -/
theorem reachable_routing_safety_witness :
    user_message 1 (SignalMessage.SessionJoin 5) ⟨[1], []⟩ ≠ none ∧
    routeRecipient ⟨none, some 1, false⟩ = none := by
  have e1 : user_connected 1 ⟨[], []⟩ = (⟨[1], []⟩ : ServerState) := by decide
  have h1 : Reachable ⟨[1], []⟩ := e1 ▸ Reachable.connect ⟨[], []⟩ 1 Reachable.init
  have h2 : Reachable ⟨[1], [(42, ⟨some 1, none, false⟩)]⟩ :=
    Reachable.message ⟨[1], []⟩ ⟨[1], [(42, ⟨some 1, none, false⟩)]⟩ 1
      (SignalMessage.SessionJoin 42) [] h1 (by decide) (by decide)
  have h3 : Reachable ⟨[1], [(42, ⟨some 1, some 1, false⟩)]⟩ :=
    Reachable.message ⟨[1], [(42, ⟨some 1, none, false⟩)]⟩
      ⟨[1], [(42, ⟨some 1, some 1, false⟩)]⟩ 1 (SignalMessage.SessionJoin 42)
      [(1, SignalMessage.SessionReady 42), (1, SignalMessage.SessionReady 42)]
      h2 (by decide) (by decide)
  have e4 : user_disconnected 1 ⟨[1], [(42, ⟨some 1, some 1, false⟩)]⟩ =
      (⟨[], [(42, ⟨none, some 1, false⟩)]⟩ : ServerState) := by decide
  have h4 : Reachable ⟨[], [(42, ⟨none, some 1, false⟩)]⟩ :=
    e4 ▸ Reachable.close ⟨[1], [(42, ⟨some 1, some 1, false⟩)]⟩ 1 h3 (by decide)
  exact ⟨(reachable_routing_safety ⟨[1], []⟩ h1).1 1 (SignalMessage.SessionJoin 5)
           (by decide),
         (reachable_routing_safety ⟨[], [(42, ⟨none, some 1, false⟩)]⟩ h4).2 1 42
           ⟨none, some 1, false⟩ (by decide) (by decide) (Or.inr rfl)⟩

end Signaling
